import Mathlib

/-!
Verification development for the invoice generation and numbering engine of
the Vereinsknete backend (src/backend/src/services/invoice.rs, pdf.rs,
i18n/mod.rs).  The Rust service functions are shallowly embedded as pure
Lean functions: the database tables (invoices, sessions) and the invoice
PDF directory become an explicit `Store` value that is threaded through
each operation, `f32` arithmetic is modelled exactly over the rationals,
and fallible operations return `Except String` carrying the literal error
messages of the source.  Time-of-day values follow the chrono semantics
used by the source: `NaiveTime` is minutes since midnight, addition of a
duration to a `NaiveTime` wraps around modulo 24 hours, and subtraction of
two `NaiveTime`s is the signed difference in minutes.
-/

namespace Vereinsknete

/-! ## String ordering (SQLite TEXT comparison, byte order) -/

/-- Lexicographic order on character lists; on the ASCII strings used for
dates this is exactly the memcmp order SQLite applies to TEXT columns. -/
def charListLe : List Char → List Char → Bool
  | [], _ => true
  | _ :: _, [] => false
  | a :: as, b :: bs =>
    if a < b then true
    else if b < a then false
    else charListLe as bs

/-- String comparison used for the SQL filters `date >= s` and `date <= s`. -/
def strLeB (a b : String) : Bool := charListLe a.data b.data

/-- Strict string comparison used for the SQL filter `date < s`. -/
def strLtB (a b : String) : Bool := strLeB a b && !(a == b)

/-! ## Rust numeric formatting -/

/-- Prepend zeros so the digit string has at least `w` characters. -/
def padZeros (s : String) (w : Nat) : String :=
  if w ≤ s.length then s else String.mk (List.replicate (w - s.length) '0') ++ s

/-- Rust `format!` with a `0w` width specification on an `i32`: the sign is
counted into the width, zeros are inserted after the sign. -/
def rustFmtWidth (w : Nat) (n : Int) : String :=
  if n < 0 then "-" ++ padZeros (toString (-n)) (w - 1) else padZeros (toString n) w

/-! ## List maximum, the embedding of SQL MAX over an integer column -/

/-- Maximum of a list of integers, `none` on the empty list (SQL `MAX`). -/
def listMax : List Int → Option Int
  | [] => none
  | a :: as =>
    match listMax as with
    | none => some a
    | some m => some (max a m)

/-! ## Wall-clock times

chrono `NaiveTime` values at the HH:MM granularity used by the service are
modelled as minutes since midnight.  `NaiveTime::parse_from_str(s, "%H:%M")`
reads one or two digits for the hour, a literal colon, one or two digits for
the minute, and requires the whole input to be consumed; hour 24 or more and
minute 60 or more are rejected. -/

/-- Numeric value of an ASCII digit, `none` for any other character. -/
def digitVal (c : Char) : Option Nat :=
  if '0' ≤ c ∧ c ≤ '9' then some (c.toNat - 48) else none

/-- Read one or two leading digits (greedy), returning the value and the
remaining characters; chrono numeric fields parse at most two digits for
`%H` and `%M`. -/
def readUpToTwoDigits : List Char → Option (Nat × List Char)
  | [] => none
  | c1 :: rest =>
    match digitVal c1 with
    | none => none
    | some d1 =>
      match rest with
      | c2 :: rest2 =>
        match digitVal c2 with
        | some d2 => some (d1 * 10 + d2, rest2)
        | none => some (d1, rest)
      | [] => some (d1, [])

/-- Embedding of `NaiveTime::parse_from_str(s, "%H:%M")`: minutes since
midnight on success, `none` on any parse failure. -/
def parseTimeHM (s : String) : Option Nat :=
  match readUpToTwoDigits s.data with
  | none => none
  | some (h, rest) =>
    if 24 ≤ h then none
    else
      match rest with
      | ':' :: rest2 =>
        match readUpToTwoDigits rest2 with
        | none => none
        | some (m, rest3) =>
          if 60 ≤ m then none
          else if rest3.isEmpty then some (h * 60 + m) else none
      | _ => none

/-- Duration of a session in hours, as computed by the line-item loop of
`generate_and_save_invoice` (invoice.rs lines 125-134): both endpoints are
parsed with `%H:%M`, an unparseable endpoint falls back to
`NaiveTime::default()` (midnight) via `unwrap_or_default`, and when
`end < start` the code evaluates `(end + Duration::hours(24)) - start`.
chrono `NaiveTime` addition wraps around modulo 24 hours, which the model
renders as a reduction modulo 1440 minutes, and `NaiveTime` subtraction is
the signed difference; `num_minutes` of that difference divided by 60.0
gives the hours.  Floating point arithmetic is modelled exactly over ℚ. -/
def durationHoursOf (startStr endStr : String) : ℚ :=
  let startT := (parseTimeHM startStr).getD 0
  let endT := (parseTimeHM endStr).getD 0
  let durationMinutes : Int :=
    if endT < startT then (((endT + 24 * 60) % 1440 : Nat) : Int) - (startT : Int)
    else (endT : Int) - (startT : Int)
  (durationMinutes : ℚ) / 60

/-! ## Calendar dates -/

/-- chrono `NaiveDate`, kept as the calendar triple. -/
structure NaiveDate where
  year : Int
  month : Int
  day : Int
deriving DecidableEq

/-- Days since 1970-01-01 of a calendar date (standard civil-calendar
computation); chrono date comparison and `num_days` of a date difference
agree with comparison and subtraction of this ordinal. -/
def NaiveDate.toOrd (d : NaiveDate) : Int :=
  let y := if d.month ≤ 2 then d.year - 1 else d.year
  let era := Int.fdiv y 400
  let yoe := y - era * 400
  let mp := (d.month + 9) % 12
  let doy := (153 * mp + 2) / 5 + d.day - 1
  let doe := yoe * 365 + yoe / 4 - yoe / 100 + doy
  era * 146097 + doe - 719468

/-- Rust `format!` of a date with the pattern `%Y-%m-%d` (ISO), used both to
build the SQL range bounds in the session query and to stamp dates. -/
def NaiveDate.toIso (d : NaiveDate) : String :=
  toString d.year ++ "-" ++ rustFmtWidth 2 d.month ++ "-" ++ rustFmtWidth 2 d.day

/-! ## Data model (models/invoice.rs, client.rs, session.rs, user_profile.rs) -/

structure UserProfile where
  id : Int
  name : String
  address : String
  tax_id : Option String
  bank_details : Option String
deriving DecidableEq

structure Client where
  id : Int
  name : String
  address : String
  contact_person : Option String
  default_hourly_rate : ℚ
deriving DecidableEq

structure Session where
  id : Int
  client_id : Int
  name : String
  date : String
  start_time : String
  end_time : String
deriving DecidableEq

structure Invoice where
  id : Int
  invoice_number : String
  client_id : Int
  date : String
  total_amount : ℚ
  pdf_path : String
  status : String
  due_date : Option String
  paid_date : Option String
  year : Int
  sequence_number : Int
  created_at : String
deriving DecidableEq

structure InvoiceSessionItem where
  name : String
  date : String
  start_time : String
  end_time : String
  duration_hours : ℚ
  amount : ℚ
deriving DecidableEq

structure InvoiceResponse where
  invoice_number : String
  date : String
  user_profile : UserProfile
  client : Client
  sessions : List InvoiceSessionItem
  total_hours : ℚ
  total_amount : ℚ
deriving DecidableEq

structure InvoiceRequest where
  client_id : Int
  start_date : NaiveDate
  end_date : NaiveDate
  language : Option String
deriving DecidableEq

structure UpdateInvoiceStatusRequest where
  status : String
  paid_date : Option String
deriving DecidableEq

structure DashboardQuery where
  period : String
  year : Int
  month : Option Int
deriving DecidableEq

structure DashboardMetrics where
  total_revenue_period : ℚ
  pending_invoices_amount : ℚ
  total_invoices_count : Int
  paid_invoices_count : Int
  pending_invoices_count : Int
deriving DecidableEq

/-- Decidable equality of results, for evaluating the model on concrete
inputs. -/
instance {ε α : Type} [DecidableEq ε] [DecidableEq α] : DecidableEq (Except ε α) :=
  fun x y =>
    match x, y with
    | .ok a, .ok b =>
      if h : a = b then isTrue (by rw [h]) else
        isFalse (fun hc => h (Except.ok.inj hc))
    | .error a, .error b =>
      if h : a = b then isTrue (by rw [h]) else
        isFalse (fun hc => h (Except.error.inj hc))
    | .ok _, .error _ => isFalse (fun hc => Except.noConfusion hc)
    | .error _, .ok _ => isFalse (fun hc => Except.noConfusion hc)

/-- The mutable world the service operates on: the invoices table, the
sessions table, and the set of PDF files on disk (paths only; the byte
content of a PDF is irrelevant to every claim). -/
structure Store where
  invoices : List Invoice
  sessions : List Session
  files : List String
deriving DecidableEq

/-- Read-only collaborators and the ambient clock: the singleton profile,
the clients table, and the values the service derives from `Utc::now()`. -/
structure Env where
  profile : Option UserProfile
  clients : List Client
  nowYear : Int
  nowMonth : Int
  todayIso : String
  duePlus30Iso : String
deriving DecidableEq

/-- Result of a successful generation: the rendered invoice document (the
PDF bytes are an opaque function of it), the row id, and the number. -/
structure GenOutput where
  doc : InvoiceResponse
  invoice_id : Int
  invoice_number : String
deriving DecidableEq

/-! ## services/invoice.rs -/

/-- Embedding of `get_next_sequence_number` (invoice.rs lines 241-272): the
target year is validated against the current year, then the next sequence is
`MAX(sequence_number) WHERE year = target_year`, with `unwrap_or(0)`, plus 1. -/
def get_next_sequence_number (invoices : List Invoice) (nowYear targetYear : Int) :
    Except String Int :=
  if targetYear < 2000 ∨ nowYear + 1 < targetYear then
    .error "Invalid year for invoice generation"
  else
    let maxSequence : Option Int :=
      listMax ((invoices.filter (fun inv => inv.year == targetYear)).map
        (fun inv => inv.sequence_number))
    .ok (maxSequence.getD 0 + 1)

/-- The session query of `generate_and_save_invoice` (invoice.rs lines
90-95): sessions of the requested client whose date string is between the
ISO-formatted start and end dates, both inclusive, compared as SQLite TEXT. -/
def sessionsInRange (sessions : List Session) (req : InvoiceRequest) : List Session :=
  sessions.filter (fun s =>
    s.client_id == req.client_id
      && strLeB req.start_date.toIso s.date
      && strLeB s.date req.end_date.toIso)

/-- One billable line item (invoice.rs lines 124-146). -/
def mkInvoiceSessionItem (hourlyRate : ℚ) (s : Session) : InvoiceSessionItem :=
  let dh := durationHoursOf s.start_time s.end_time
  { name := s.name, date := s.date, start_time := s.start_time,
    end_time := s.end_time, duration_hours := dh, amount := dh * hourlyRate }

/-- All data assembled by the validation phase of `generate_and_save_invoice`. -/
structure ValidatedInvoice where
  profile : UserProfile
  clientData : Client
  nextSeq : Int
  invoice_number : String
  items : List InvoiceSessionItem
  total_hours : ℚ
  total_amount : ℚ
deriving DecidableEq

/-- Validation phase of `generate_and_save_invoice` (invoice.rs lines
24-163), in source order: client id, date range, 365-day span, profile
lookup, client lookup, sequence number for the current year, session query
and emptiness check, hourly-rate check, line-item aggregation and the
positive-total check.  Every `bail!` of the source occurs in this phase,
before the PDF file write (line 189) and the row insert (line 212). -/
def generate_validate (env : Env) (st : Store) (req : InvoiceRequest) :
    Except String ValidatedInvoice :=
  if req.client_id ≤ 0 then .error "Invalid client ID"
  else if req.end_date.toOrd ≤ req.start_date.toOrd then
    .error "End date must be after start date"
  else if 365 < req.end_date.toOrd - req.start_date.toOrd then
    .error "Date range cannot exceed 1 year"
  else
    match env.profile with
    | none => .error "User profile not found - please create a user profile first"
    | some profile =>
      match env.clients.find? (fun c => c.id == req.client_id) with
      | none => .error "Client not found"
      | some clientData =>
        match get_next_sequence_number st.invoices env.nowYear env.nowYear with
        | .error e => .error e
        | .ok nextSeq =>
          let invoiceNumberStr := toString env.nowYear ++ "-" ++ rustFmtWidth 4 nextSeq
          let sessionData := sessionsInRange st.sessions req
          if sessionData.isEmpty then .error "No sessions found in the specified date range"
          else
            let hourlyRate := clientData.default_hourly_rate
            if hourlyRate ≤ 0 then .error "Client has invalid hourly rate"
            else
              let items := sessionData.map (mkInvoiceSessionItem hourlyRate)
              let totalHours := (items.map (fun it => it.duration_hours)).sum
              let totalAmount := totalHours * hourlyRate
              if totalAmount ≤ 0 then .error "Invoice amount must be positive"
              else
                .ok { profile := profile, clientData := clientData,
                      nextSeq := nextSeq, invoice_number := invoiceNumberStr,
                      items := items, total_hours := totalHours,
                      total_amount := totalAmount }

/-- The on-disk location of an invoice PDF, recomputed from the number
(invoice.rs lines 184-185 and 617). -/
def invoicePdfPath (invoiceNumber : String) : String :=
  "invoices/invoice_" ++ invoiceNumber ++ ".pdf"

/-- The aggregated invoice document handed to the PDF renderer
(invoice.rs lines 166-174). -/
def invoiceDocOf (env : Env) (v : ValidatedInvoice) : InvoiceResponse :=
  { invoice_number := v.invoice_number, date := env.todayIso,
    user_profile := v.profile, client := v.clientData,
    sessions := v.items, total_hours := v.total_hours,
    total_amount := v.total_amount }

/-- The row inserted into the invoices table (invoice.rs lines 199-209),
with the id SQLite assigns to it: one past the maximal existing id, which
is also what the re-query of the freshly inserted id returns. -/
def newInvoiceOf (env : Env) (st : Store) (req : InvoiceRequest)
    (v : ValidatedInvoice) : Invoice :=
  { id := (listMax (st.invoices.map (fun i => i.id))).getD 0 + 1,
    invoice_number := v.invoice_number, client_id := req.client_id,
    date := env.todayIso, total_amount := v.total_amount,
    pdf_path := invoicePdfPath v.invoice_number, status := "created",
    due_date := some env.duePlus30Iso, paid_date := none,
    year := env.nowYear, sequence_number := v.nextSeq,
    created_at := env.todayIso }

/-- Embedding of `generate_and_save_invoice` (invoice.rs lines 20-231).  The
validation phase runs first; on success the PDF is rendered (an opaque
function of the document, so only the written path is tracked), the file is
written, the row is inserted with status `created` and due date now + 30
days, and the fresh row id is re-read as the maximal id (SQLite assigns
max + 1).  On any validation failure the store is returned unchanged, which
mirrors the source because every failure there precedes the first write. -/
def generate_and_save_invoice (env : Env) (st : Store) (req : InvoiceRequest) :
    Except String GenOutput × Store :=
  match generate_validate env st req with
  | .error e => (.error e, st)
  | .ok v =>
    let pdfPathStr := invoicePdfPath v.invoice_number
    let filesAfterWrite := if pdfPathStr ∈ st.files then st.files else pdfPathStr :: st.files
    let newInvoice := newInvoiceOf env st req v
    (.ok { doc := invoiceDocOf env v, invoice_id := newInvoice.id,
           invoice_number := v.invoice_number },
     { st with invoices := st.invoices ++ [newInvoice], files := filesAfterWrite })

/-- Embedding of `update_invoice_status` (invoice.rs lines 360-421): id
validation, closed status set, the paid-needs-date rule, then an UPDATE of
the status and paid_date columns of every row with the given id; zero
affected rows is reported as not found. -/
def update_invoice_status (st : Store) (invoice_id : Int)
    (status_req : UpdateInvoiceStatusRequest) : Except String Store :=
  if invoice_id ≤ 0 then .error "Invalid invoice ID"
  else if !(["created", "sent", "paid", "overdue", "cancelled"].contains status_req.status) then
    .error "Invalid status. Must be one of: created, sent, paid, overdue, cancelled"
  else if status_req.status == "paid" && status_req.paid_date.isNone then
    .error "Paid date is required when marking invoice as paid"
  else
    let updated := st.invoices.map (fun inv =>
      if inv.id == invoice_id then
        { inv with status := status_req.status, paid_date := status_req.paid_date }
      else inv)
    let affected := (st.invoices.filter (fun inv => inv.id == invoice_id)).length
    if affected == 0 then .error "Invoice not found"
    else .ok { st with invoices := updated }

/-- The date window of `get_dashboard_metrics` (invoice.rs lines 458-489):
a half-open range of ISO date strings derived from period, year and month,
with the month defaulting to the current month; the quarter is derived from
the month by truncating division as in Rust. -/
def periodWindow (nowMonth : Int) (query : DashboardQuery) :
    Except String (String × String) :=
  if query.period == "month" then
    let month := query.month.getD nowMonth
    let startStr := toString query.year ++ "-" ++ rustFmtWidth 2 month ++ "-01"
    let stopStr :=
      if month == 12 then toString (query.year + 1) ++ "-01-01"
      else toString query.year ++ "-" ++ rustFmtWidth 2 (month + 1) ++ "-01"
    .ok (startStr, stopStr)
  else if query.period == "quarter" then
    let quarter := Int.tdiv (query.month.getD nowMonth - 1) 3 + 1
    let startMonth := (quarter - 1) * 3 + 1
    let startStr := toString query.year ++ "-" ++ rustFmtWidth 2 startMonth ++ "-01"
    let stopStr :=
      if quarter == 4 then toString (query.year + 1) ++ "-01-01"
      else toString query.year ++ "-" ++ rustFmtWidth 2 (startMonth + 3) ++ "-01"
    .ok (startStr, stopStr)
  else if query.period == "year" then
    .ok (toString query.year ++ "-01-01", toString (query.year + 1) ++ "-01-01")
  else .error "Invalid period. Use month, quarter, or year"

/-- Embedding of `get_dashboard_metrics` (invoice.rs lines 431-549): year
and month validation, the period window, then the five aggregates.  Revenue
sums paid invoices with date inside the half-open window; the pending
amount sums all sent invoices with no date restriction; the three counts
are over the whole table. -/
def get_dashboard_metrics (env : Env) (invoices : List Invoice)
    (query : DashboardQuery) : Except String DashboardMetrics :=
  if query.year < 2000 ∨ env.nowYear + 1 < query.year then .error "Invalid year"
  else if (match query.month with
           | some m => decide (m < 1 ∨ 12 < m)
           | none => false) then .error "Invalid month"
  else
    match periodWindow env.nowMonth query with
    | .error e => .error e
    | .ok (startDate, stopDate) =>
      let paidAmounts := (invoices.filter (fun inv =>
        inv.status == "paid" && strLeB startDate inv.date
          && strLtB inv.date stopDate)).map (fun inv => inv.total_amount)
      let pendingAmounts := (invoices.filter (fun inv =>
        inv.status == "sent")).map (fun inv => inv.total_amount)
      .ok { total_revenue_period := paidAmounts.sum,
            pending_invoices_amount := pendingAmounts.sum,
            total_invoices_count := (invoices.length : Int),
            paid_invoices_count :=
              ((invoices.filter (fun inv => inv.status == "paid")).length : Int),
            pending_invoices_count :=
              ((invoices.filter (fun inv => inv.status == "sent")).length : Int) }

/-- Embedding of `delete_invoice` (invoice.rs lines 605-628): the invoice is
looked up by id (failure propagates), the PDF path is recomputed from the
invoice number, the file is removed only if present, and the row is deleted;
sessions are never touched. -/
def delete_invoice (st : Store) (invoice_id : Int) : Except String Store :=
  match st.invoices.find? (fun inv => inv.id == invoice_id) with
  | none => .error "Failed to get invoice"
  | some inv =>
    let pdfPath := invoicePdfPath inv.invoice_number
    let filesAfter := if pdfPath ∈ st.files then st.files.erase pdfPath else st.files
    .ok { st with
          invoices := st.invoices.filter (fun i => !(i.id == invoice_id)),
          files := filesAfter }

/-! ## i18n/mod.rs and services/pdf.rs -/

/-- The two supported PDF languages; the derived Rust `Default` is German. -/
inductive Language where
  | English
  | German
deriving DecidableEq

/-- Rust `char::to_ascii_lowercase`: only the ASCII uppercase letters move. -/
def asciiToLower (c : Char) : Char :=
  if 'A' ≤ c ∧ c ≤ 'Z' then Char.ofNat (c.toNat + 32) else c

/-- Rust `str::to_ascii_lowercase`. -/
def asciiLowerStr (s : String) : String := String.mk (s.data.map asciiToLower)

/-- Embedding of `Language::from_str` (i18n/mod.rs lines 22-32): parsing is
infallible, the lowercased code en maps to English and everything else to
the German default. -/
def Language.fromStr (s : String) : Language :=
  if asciiLowerStr s == "en" then .English else .German

/-- The language selection of `generate_invoice_pdf` (pdf.rs lines 36-41):
a present language string is parsed with `Language::from_str`, an absent one
falls back to the derived default, German. -/
def pdfLanguageOf (language : Option String) : Language :=
  match language with
  | some langStr => Language.fromStr langStr
  | none => Language.German

/-! ## Witness fixtures: the concrete scenario of spec section 8

A profile, the client Acme with hourly rate 100, and two sessions on
2025-01-10 09:00-11:00 and 2025-01-15 10:00-11:00 (three hours in total). -/

def profileW : UserProfile :=
  { id := 1, name := "Alice", address := "Addr", tax_id := none,
    bank_details := some "Bank" }

def clientW : Client :=
  { id := 1, name := "Acme", address := "Addr", contact_person := none,
    default_hourly_rate := 100 }

def sessionW1 : Session :=
  { id := 1, client_id := 1, name := "Work", date := "2025-01-10",
    start_time := "09:00", end_time := "11:00" }

def sessionW2 : Session :=
  { id := 2, client_id := 1, name := "Work", date := "2025-01-15",
    start_time := "10:00", end_time := "11:00" }

def envW : Env :=
  { profile := some profileW, clients := [clientW], nowYear := 2025,
    nowMonth := 6, todayIso := "2025-06-15", duePlus30Iso := "2025-07-15" }

def stW : Store :=
  { invoices := [], sessions := [sessionW1, sessionW2], files := [] }

def reqW : InvoiceRequest :=
  { client_id := 1, start_date := ⟨2025, 1, 1⟩, end_date := ⟨2025, 1, 31⟩,
    language := none }

def itemW1 : InvoiceSessionItem :=
  { name := "Work", date := "2025-01-10", start_time := "09:00",
    end_time := "11:00", duration_hours := 2, amount := 200 }

def itemW2 : InvoiceSessionItem :=
  { name := "Work", date := "2025-01-15", start_time := "10:00",
    end_time := "11:00", duration_hours := 1, amount := 100 }

/-- The full output of running the generation on the fixture scenario. -/
def outW : GenOutput :=
  { doc := { invoice_number := "2025-0001", date := "2025-06-15",
             user_profile := profileW, client := clientW,
             sessions := [itemW1, itemW2], total_hours := 3,
             total_amount := 300 },
    invoice_id := 1, invoice_number := "2025-0001" }

/-- A store with no sessions at all, for the no-sessions failure witness. -/
def stNoSessW : Store := { invoices := [], sessions := [], files := [] }

/-- A stored invoice in status sent with a stale paid date, plus its PDF. -/
def invoiceW : Invoice :=
  { id := 1, invoice_number := "2025-0001", client_id := 1,
    date := "2025-06-15", total_amount := 300,
    pdf_path := "invoices/invoice_2025-0001.pdf", status := "sent",
    due_date := some "2025-07-15", paid_date := some "2025-06-20",
    year := 2025, sequence_number := 1, created_at := "2025-06-15" }

def stInvW : Store :=
  { invoices := [invoiceW], sessions := [sessionW1],
    files := ["invoices/invoice_2025-0001.pdf"] }

/-- Invoice table for the dashboard witness: two paid invoices (one inside
the January 2025 window, one outside), one sent invoice dated 2024. -/
def invD1 : Invoice :=
  { invoiceW with
    id := 1, status := "paid", date := "2025-01-15",
    total_amount := 100, paid_date := some "2025-01-20" }

def invD2 : Invoice :=
  { invoiceW with
    id := 2, status := "paid", date := "2025-03-10",
    total_amount := 50 }

def invD3 : Invoice :=
  { invoiceW with
    id := 3, status := "sent", date := "2024-12-01",
    total_amount := 70, paid_date := none }

def queryD : DashboardQuery :=
  { period := "month", year := 2025, month := some 1 }

/-- The store after moving `invoiceW` to overdue with no paid date (the
expected result of the status-update frame witness). -/
def stInvW' : Store :=
  { stInvW with
    invoices := [{ invoiceW with status := "overdue", paid_date := none }] }

/-! ## Auxiliary lemmas -/

theorem listMax_isUB {l : List Int} {m : Int} (h : listMax l = some m) :
    ∀ x ∈ l, x ≤ m := by
  induction l generalizing m with
  | nil => exact Option.noConfusion h
  | cons a as ih =>
    intro x hx
    simp only [listMax] at h
    cases hmax : listMax as with
    | none =>
      rw [hmax] at h
      cases hmax' : as with
      | nil =>
        simp [hmax'] at hx
        simp only [Option.some.injEq] at h
        omega
      | cons b bs => rw [hmax'] at hmax; simp [listMax] at hmax; cases hbs : listMax bs <;> simp [hbs] at hmax
    | some m' =>
      rw [hmax] at h
      simp only [Option.some.injEq] at h
      rcases List.mem_cons.mp hx with rfl | hx'
      · omega
      · have := ih hmax x hx'
        omega

theorem listMax_mem {l : List Int} {m : Int} (h : listMax l = some m) : m ∈ l := by
  induction l generalizing m with
  | nil => exact Option.noConfusion h
  | cons a as ih =>
    simp only [listMax] at h
    cases hmax : listMax as with
    | none =>
      rw [hmax] at h
      simp only [Option.some.injEq] at h
      simp [← h]
    | some m' =>
      rw [hmax] at h
      simp only [Option.some.injEq] at h
      rcases max_cases a m' with ⟨heq, _⟩ | ⟨heq, _⟩
      · simp [← h, heq]
      · have := ih hmax
        rw [← h, heq]
        exact List.mem_cons_of_mem a this

theorem listMax_append_singleton {l : List Int} {x : Int}
    (h : ∀ a ∈ l, a ≤ x) : listMax (l ++ [x]) = some x := by
  induction l with
  | nil => simp [listMax]
  | cons a as ih =>
    have ha : a ≤ x := h a (List.mem_cons_self a as)
    have htail := ih (fun b hb => h b (List.mem_cons_of_mem a hb))
    simp only [List.cons_append, listMax, List.append_eq]
    rw [htail]
    simp [max_eq_right ha]

theorem listMax_nil_of_empty {l : List Int} (h : l = []) : listMax l = none := by
  subst h; rfl


theorem listMax_eq_none {l : List Int} (h : listMax l = none) : l = [] := by
  cases l with
  | nil => rfl
  | cons a as =>
    simp only [listMax] at h
    cases hmax : listMax as <;> rw [hmax] at h <;> exact Option.noConfusion h

theorem mkInvoiceSessionItem_duration (r : ℚ) (s : Session) :
    (mkInvoiceSessionItem r s).duration_hours = durationHoursOf s.start_time s.end_time := rfl

theorem mkInvoiceSessionItem_amount (r : ℚ) (s : Session) :
    (mkInvoiceSessionItem r s).amount = durationHoursOf s.start_time s.end_time * r := rfl

theorem rustFmtWidth_of_nonneg {n : Int} (h : 0 ≤ n) (w : Nat) :
    rustFmtWidth w n = padZeros (toString n) w := by
  unfold rustFmtWidth
  rw [if_neg (by omega)]

/-- Success inversion for the validation phase: every guard of the source
passed, and the assembled document fields are exactly the aggregates. -/
theorem generate_validate_ok {env : Env} {st : Store} {req : InvoiceRequest}
    {v : ValidatedInvoice} (h : generate_validate env st req = .ok v) :
    0 < req.client_id
    ∧ req.start_date.toOrd < req.end_date.toOrd
    ∧ req.end_date.toOrd - req.start_date.toOrd ≤ 365
    ∧ env.profile = some v.profile
    ∧ env.clients.find? (fun c => c.id == req.client_id) = some v.clientData
    ∧ get_next_sequence_number st.invoices env.nowYear env.nowYear = .ok v.nextSeq
    ∧ v.invoice_number = toString env.nowYear ++ "-" ++ rustFmtWidth 4 v.nextSeq
    ∧ sessionsInRange st.sessions req ≠ []
    ∧ 0 < v.clientData.default_hourly_rate
    ∧ v.items = (sessionsInRange st.sessions req).map
        (mkInvoiceSessionItem v.clientData.default_hourly_rate)
    ∧ v.total_hours = (v.items.map (fun it => it.duration_hours)).sum
    ∧ v.total_amount = v.total_hours * v.clientData.default_hourly_rate
    ∧ 0 < v.total_amount := by
  unfold generate_validate at h
  split_ifs at h with h1 h2 h3
  split at h
  · exact Except.noConfusion h
  split at h
  · exact Except.noConfusion h
  split at h
  · exact Except.noConfusion h
  dsimp only at h
  split_ifs at h with h4 h5 h6
  rename_i xp profile hprofile xc clientData hclient xs nextSeq hseq
  simp only [Except.ok.injEq] at h
  subst h
  refine ⟨by omega, by omega, by omega, hprofile, hclient, hseq, rfl, ?_, ?_, rfl, rfl, rfl, ?_⟩
  · intro hnil
    rw [hnil] at h4
    exact h4 rfl
  · exact lt_of_not_le h5
  · exact lt_of_not_le h6

theorem get_next_sequence_number_ok {invoices : List Invoice}
    {nowYear targetYear n : Int}
    (h : get_next_sequence_number invoices nowYear targetYear = .ok n) :
    2000 ≤ targetYear ∧ targetYear ≤ nowYear + 1
    ∧ n = (listMax ((invoices.filter (fun inv => inv.year == targetYear)).map
        (fun inv => inv.sequence_number))).getD 0 + 1 := by
  unfold get_next_sequence_number at h
  split_ifs at h with hy
  push_neg at hy
  simp only [Except.ok.injEq] at h
  exact ⟨hy.1, hy.2, h.symm⟩

theorem get_next_sequence_number_eq {invoices : List Invoice}
    {nowYear targetYear : Int}
    (h1 : 2000 ≤ targetYear) (h2 : targetYear ≤ nowYear + 1) :
    get_next_sequence_number invoices nowYear targetYear =
      .ok ((listMax ((invoices.filter (fun inv => inv.year == targetYear)).map
        (fun inv => inv.sequence_number))).getD 0 + 1) := by
  unfold get_next_sequence_number
  rw [if_neg (by omega)]

theorem seq_mem_of_invoice {l : List Invoice} {inv : Invoice} {y : Int}
    (h1 : inv ∈ l) (h2 : inv.year = y) :
    inv.sequence_number ∈
      (l.filter (fun i => i.year == y)).map (fun i => i.sequence_number) :=
  List.mem_map_of_mem _ (List.mem_filter.mpr ⟨h1, by simp [h2]⟩)

theorem invoice_of_seq_mem {l : List Invoice} {y m : Int}
    (h : m ∈ (l.filter (fun i => i.year == y)).map (fun i => i.sequence_number)) :
    ∃ inv ∈ l, inv.year = y ∧ inv.sequence_number = m := by
  obtain ⟨inv, hmem, hseq⟩ := List.mem_map.mp h
  obtain ⟨hmem', hy⟩ := List.mem_filter.mp hmem
  exact ⟨inv, hmem', beq_iff_eq.mp hy, hseq⟩

/-- Every failure message of the generation comes from this closed list of
validation messages; in particular a malformed time string never produces
an error. -/
theorem generate_validate_error_mem {env : Env} {st : Store}
    {req : InvoiceRequest} {e : String}
    (h : generate_validate env st req = .error e) :
    e ∈ ["Invalid client ID", "End date must be after start date",
         "Date range cannot exceed 1 year",
         "User profile not found - please create a user profile first",
         "Client not found", "Invalid year for invoice generation",
         "No sessions found in the specified date range",
         "Client has invalid hourly rate",
         "Invoice amount must be positive"] := by
  unfold generate_validate at h
  split_ifs at h <;>
    first
      | (simp only [Except.error.injEq] at h; simp [← h])
      | skip
  split at h
  · simp only [Except.error.injEq] at h; simp [← h]
  split at h
  · simp only [Except.error.injEq] at h; simp [← h]
  split at h
  · rename_i hseq
    unfold get_next_sequence_number at hseq
    split_ifs at hseq with hy
    simp only [Except.error.injEq] at hseq
    simp only [Except.error.injEq] at h
    simp [← h, ← hseq]
  try dsimp only at h
  split_ifs at h <;>
    first
      | (simp only [Except.error.injEq] at h; simp [← h])
      | exact Except.noConfusion h

theorem listMax_seqs_append (l : List Invoice) (newInv : Invoice) (y : Int)
    (hy : newInv.year = y)
    (hub : ∀ a ∈ (l.filter (fun i => i.year == y)).map (fun i => i.sequence_number),
        a ≤ newInv.sequence_number) :
    listMax (((l ++ [newInv]).filter (fun i => i.year == y)).map
        (fun i => i.sequence_number)) = some newInv.sequence_number := by
  have hone : List.filter (fun i => i.year == y) [newInv] = [newInv] := by
    simp [List.filter, hy]
  rw [List.filter_append, hone, List.map_append]
  exact listMax_append_singleton hub

theorem periodWindow_year {nowMonth : Int} {query : DashboardQuery}
    (hp : query.period = "year") :
    periodWindow nowMonth query =
      .ok (toString query.year ++ "-01-01",
        toString (query.year + 1) ++ "-01-01") := by
  unfold periodWindow
  rw [hp, if_neg (by decide), if_neg (by decide), if_pos (by decide)]

theorem periodWindow_month {nowMonth : Int} {query : DashboardQuery}
    (hp : query.period = "month") :
    periodWindow nowMonth query =
      .ok (toString query.year ++ "-"
            ++ rustFmtWidth 2 (query.month.getD nowMonth) ++ "-01",
        if query.month.getD nowMonth == (12 : Int) then
          toString (query.year + 1) ++ "-01-01"
        else
          toString query.year ++ "-"
            ++ rustFmtWidth 2 (query.month.getD nowMonth + 1) ++ "-01") := by
  unfold periodWindow
  rw [hp, if_pos (by decide)]

theorem periodWindow_isOk {nowMonth : Int} {query : DashboardQuery}
    (h4 : query.period = "month" ∨ query.period = "quarter"
      ∨ query.period = "year") :
    ∃ s t, periodWindow nowMonth query = .ok (s, t) := by
  rcases h4 with hp | hp | hp
  · exact ⟨_, _, periodWindow_month hp⟩
  · unfold periodWindow
    rw [hp, if_neg (by decide), if_pos (by decide)]
    exact ⟨_, _, rfl⟩
  · exact ⟨_, _, periodWindow_year hp⟩

theorem get_dashboard_metrics_eq (env : Env) (invs : List Invoice)
    (query : DashboardQuery) {s t : String}
    (h1 : 2000 ≤ query.year) (h2 : query.year ≤ env.nowYear + 1)
    (h3 : ∀ m, query.month = some m → 1 ≤ m ∧ m ≤ 12)
    (hw : periodWindow env.nowMonth query = .ok (s, t)) :
    get_dashboard_metrics env invs query = .ok
      { total_revenue_period := ((invs.filter (fun inv =>
          inv.status == "paid" && strLeB s inv.date
            && strLtB inv.date t)).map (fun inv => inv.total_amount)).sum,
        pending_invoices_amount := ((invs.filter (fun inv =>
          inv.status == "sent")).map (fun inv => inv.total_amount)).sum,
        total_invoices_count := (invs.length : Int),
        paid_invoices_count := ((invs.filter
          (fun inv => inv.status == "paid")).length : Int),
        pending_invoices_count := ((invs.filter
          (fun inv => inv.status == "sent")).length : Int) } := by
  have hm : (match query.month with
      | some m => decide (m < 1 ∨ 12 < m)
      | none => false) = false := by
    cases hq : query.month with
    | none => rfl
    | some m =>
      have := h3 m hq
      simp only [decide_eq_false_iff_not]
      omega
  unfold get_dashboard_metrics
  rw [if_neg (by omega), hm, if_neg (by simp), hw]

/-! ## Claims -/

/-- C1: For every year y, the sequence number assigned by invoice generation
equals 1 + the maximum sequence_number among stored invoices with year = y
(1 when no invoice for y exists), and the invoice number is the string
formed from the year and that sequence zero-padded to four digits; hence
sequential generations within one year produce consecutive, gap-free
sequence numbers.  The characterisation states that the new sequence
strictly bounds every stored sequence of the issue year, that it is the
successor of an attained sequence (or 1 when the year has no invoices),
that the stored and returned invoice number is built from the year and the
zero-padded sequence, and that the next sequence computation on the updated
store yields exactly the successor. -/
theorem invoice_numbering_gap_free (env : Env) (st : Store) (req : InvoiceRequest)
    (hwf : ∀ inv ∈ st.invoices, 0 ≤ inv.sequence_number)
    (hok : ((generate_and_save_invoice env st req).1).isOk = true) :
    ∃ newInv : Invoice,
      (generate_and_save_invoice env st req).2.invoices = st.invoices ++ [newInv]
      ∧ newInv.year = env.nowYear
      ∧ (∀ inv ∈ st.invoices, inv.year = env.nowYear →
          inv.sequence_number < newInv.sequence_number)
      ∧ ((∃ inv ∈ st.invoices, inv.year = env.nowYear
            ∧ inv.sequence_number + 1 = newInv.sequence_number)
          ∨ ((∀ inv ∈ st.invoices, inv.year ≠ env.nowYear)
            ∧ newInv.sequence_number = 1))
      ∧ newInv.invoice_number =
          toString env.nowYear ++ "-" ++ padZeros (toString newInv.sequence_number) 4
      ∧ (∀ out, (generate_and_save_invoice env st req).1 = .ok out →
          out.invoice_number = newInv.invoice_number)
      ∧ get_next_sequence_number (generate_and_save_invoice env st req).2.invoices
          env.nowYear env.nowYear = .ok (newInv.sequence_number + 1) := by
  cases hv : generate_validate env st req with
  | error e =>
    have heq : (generate_and_save_invoice env st req).1 = .error e := by
      unfold generate_and_save_invoice
      rw [hv]
    rw [heq] at hok
    simp [Except.isOk, Except.toBool] at hok
  | ok v =>
    obtain ⟨_, _, _, _, _, hseq, hnum, _, _, _, _, _, _⟩ := generate_validate_ok hv
    obtain ⟨hy1, hy2, hval⟩ := get_next_sequence_number_ok hseq
    have hub : ∀ a ∈ (st.invoices.filter
        (fun i => i.year == env.nowYear)).map (fun i => i.sequence_number),
        a ≤ v.nextSeq := by
      intro a ha
      cases hmax : listMax ((st.invoices.filter
          (fun i => i.year == env.nowYear)).map (fun i => i.sequence_number)) with
      | none =>
        rw [listMax_eq_none hmax] at ha
        exact absurd ha (List.not_mem_nil _)
      | some m =>
        have := listMax_isUB hmax _ ha
        rw [hval, hmax]
        simp only [Option.getD_some]
        omega
    simp only [generate_and_save_invoice, hv]
    refine ⟨newInvoiceOf env st req v, rfl, rfl, ?_, ?_, ?_, ?_, ?_⟩
    · -- strict upper bound on the stored sequences of the issue year
      intro inv hmem hyear
      have hseqmem := seq_mem_of_invoice hmem hyear
      have := hub _ hseqmem
      show inv.sequence_number < v.nextSeq
      rcases lt_or_eq_of_le this with hlt | heq
      · exact hlt
      · -- equality is impossible since the bound is the successor of the max
        cases hmax : listMax ((st.invoices.filter
            (fun i => i.year == env.nowYear)).map (fun i => i.sequence_number)) with
        | none =>
          rw [listMax_eq_none hmax] at hseqmem
          exact absurd hseqmem (List.not_mem_nil _)
        | some m =>
          have hle := listMax_isUB hmax _ hseqmem
          rw [hval, hmax] at heq ⊢
          simp only [Option.getD_some] at heq ⊢
          omega
    · -- the new sequence is an attained sequence plus one, or the default 1
      cases hmax : listMax ((st.invoices.filter
          (fun i => i.year == env.nowYear)).map (fun i => i.sequence_number)) with
      | none =>
        right
        have hnil := listMax_eq_none hmax
        constructor
        · intro inv hmem hyear
          have := seq_mem_of_invoice hmem hyear
          rw [hnil] at this
          exact absurd this (List.not_mem_nil _)
        · show v.nextSeq = 1
          rw [hval, hmax]
          rfl
      | some m =>
        left
        obtain ⟨inv, hmem, hyear, hseqm⟩ := invoice_of_seq_mem (listMax_mem hmax)
        refine ⟨inv, hmem, hyear, ?_⟩
        show inv.sequence_number + 1 = v.nextSeq
        rw [hval, hmax, hseqm]
        rfl
    · -- number format: year, dash, zero-padded sequence
      have hpos : 0 ≤ v.nextSeq := by
        cases hmax : listMax ((st.invoices.filter
            (fun i => i.year == env.nowYear)).map (fun i => i.sequence_number)) with
        | none => rw [hval, hmax]; simp
        | some m =>
          obtain ⟨inv, hmem, _, hseqm⟩ := invoice_of_seq_mem (listMax_mem hmax)
          have := hwf inv hmem
          rw [hval, hmax]
          simp only [Option.getD_some]
          omega
      show v.invoice_number = toString env.nowYear ++ "-" ++ padZeros (toString v.nextSeq) 4
      rw [hnum, rustFmtWidth_of_nonneg hpos]
    · -- the returned number equals the stored number
      intro out hout
      simp only [Except.ok.injEq] at hout
      rw [← hout]
      rfl
    · -- the next generation in the same year continues with the successor
      rw [get_next_sequence_number_eq hy1 hy2,
        listMax_seqs_append st.invoices (newInvoiceOf env st req v) env.nowYear rfl hub]
      rfl

/-- C1 witness: on the concrete section-8 scenario the generation succeeds
and the numbering facts hold. -/
theorem invoice_numbering_gap_free_witness :
    (∀ inv ∈ stW.invoices, 0 ≤ inv.sequence_number)
    ∧ ∃ newInv : Invoice,
      (generate_and_save_invoice envW stW reqW).2.invoices = stW.invoices ++ [newInv]
      ∧ newInv.year = envW.nowYear
      ∧ (∀ inv ∈ stW.invoices, inv.year = envW.nowYear →
          inv.sequence_number < newInv.sequence_number)
      ∧ ((∃ inv ∈ stW.invoices, inv.year = envW.nowYear
            ∧ inv.sequence_number + 1 = newInv.sequence_number)
          ∨ ((∀ inv ∈ stW.invoices, inv.year ≠ envW.nowYear)
            ∧ newInv.sequence_number = 1))
      ∧ newInv.invoice_number =
          toString envW.nowYear ++ "-" ++ padZeros (toString newInv.sequence_number) 4
      ∧ (∀ out, (generate_and_save_invoice envW stW reqW).1 = .ok out →
          out.invoice_number = newInv.invoice_number)
      ∧ get_next_sequence_number (generate_and_save_invoice envW stW reqW).2.invoices
          envW.nowYear envW.nowYear = .ok (newInv.sequence_number + 1) :=
  ⟨by decide, invoice_numbering_gap_free envW stW reqW (by decide)
    (by with_unfolding_all decide)⟩

/-- C2: The claim states that a session whose end time is at or before its
start time has its duration computed as (end + 24h) - start, so that start
23:00 / end 01:00 yields 2.0 hours.  The code does write
`end + Duration::hours(24) - start` in that branch (invoice.rs line 131),
but chrono `NaiveTime` addition wraps around modulo 24 hours, so adding 24
hours is the identity and the branch actually computes `end - start`, which
is negative there: the evaluation shows 09:00-17:30 gives 8.5 hours as
claimed, while 23:00-01:00 gives -22.0 hours, not the claimed 2.0. -/
theorem midnight_crossing_duration_negative :
    durationHoursOf "09:00" "17:30" = 17 / 2
    ∧ durationHoursOf "23:00" "01:00" = -22
    ∧ durationHoursOf "23:00" "01:00" ≠ 2 := by
  refine ⟨?_, ?_, ?_⟩ <;> with_unfolding_all decide

/-- C6: For every generated invoice, each line item amount equals its
duration in hours times the client hourly rate, totalHours is the sum of
all line durations, and totalAmount equals totalHours times the hourly rate,
which also equals the sum of the line amounts. -/
theorem invoice_amounts_consistent (env : Env) (st : Store) (req : InvoiceRequest)
    (out : GenOutput) (hout : (generate_and_save_invoice env st req).1 = .ok out) :
    (∀ item ∈ out.doc.sessions,
        item.amount = item.duration_hours * out.doc.client.default_hourly_rate)
    ∧ out.doc.total_hours = (out.doc.sessions.map (fun it => it.duration_hours)).sum
    ∧ out.doc.total_amount = out.doc.total_hours * out.doc.client.default_hourly_rate
    ∧ out.doc.total_amount = (out.doc.sessions.map (fun it => it.amount)).sum := by
  cases hv : generate_validate env st req with
  | error e =>
    have heq : (generate_and_save_invoice env st req).1 = .error e := by
      unfold generate_and_save_invoice
      rw [hv]
    rw [heq] at hout
    exact Except.noConfusion hout
  | ok v =>
    have hgen : (generate_and_save_invoice env st req).1 =
        .ok { doc := invoiceDocOf env v,
              invoice_id := (newInvoiceOf env st req v).id,
              invoice_number := v.invoice_number } := by
      unfold generate_and_save_invoice
      rw [hv]
    rw [hgen] at hout
    simp only [Except.ok.injEq] at hout
    subst hout
    obtain ⟨_, _, _, _, _, _, _, _, _, hitems, hth, hta, _⟩ := generate_validate_ok hv
    refine ⟨?_, ?_, ?_, ?_⟩
    · intro item hitem
      have : item ∈ v.items := hitem
      rw [hitems] at this
      obtain ⟨s, _, hs⟩ := List.mem_map.mp this
      show item.amount = item.duration_hours * v.clientData.default_hourly_rate
      rw [← hs]
      rfl
    · exact hth
    · exact hta
    · show v.total_amount = (v.items.map (fun it => it.amount)).sum
      rw [hta, hth, hitems, List.map_map, List.map_map]
      rw [show ((fun it => it.amount) ∘
          mkInvoiceSessionItem v.clientData.default_hourly_rate)
          = (fun s : Session => durationHoursOf s.start_time s.end_time *
              v.clientData.default_hourly_rate) from rfl]
      rw [List.sum_map_mul_right]
      rfl

/-- C6 witness: on the section-8 scenario (rate 100, sessions totalling
three hours) the generation yields totalHours 3 and totalAmount 300, and
the per-line and total identities hold. -/
theorem invoice_amounts_consistent_witness :
    ((generate_and_save_invoice envW stW reqW).1 = .ok outW
      ∧ outW.doc.total_hours = 3
      ∧ outW.doc.total_amount = 300
      ∧ outW.doc.client.default_hourly_rate = 100)
    ∧ ((∀ item ∈ outW.doc.sessions,
          item.amount = item.duration_hours * outW.doc.client.default_hourly_rate)
      ∧ outW.doc.total_hours = (outW.doc.sessions.map (fun it => it.duration_hours)).sum
      ∧ outW.doc.total_amount = outW.doc.total_hours * outW.doc.client.default_hourly_rate
      ∧ outW.doc.total_amount = (outW.doc.sessions.map (fun it => it.amount)).sum) :=
  ⟨by with_unfolding_all decide,
   invoice_amounts_consistent envW stW reqW outW (by with_unfolding_all decide)⟩

/-- C7: The language selection of PDF rendering is total: an absent
language and every string other than case-insensitive en map to the German
default, en maps to English, and no language value causes an error. -/
theorem pdf_language_selection_total :
    pdfLanguageOf none = Language.German
    ∧ (∀ s, asciiLowerStr s = "en" → pdfLanguageOf (some s) = Language.English)
    ∧ (∀ s, asciiLowerStr s ≠ "en" → pdfLanguageOf (some s) = Language.German)
    ∧ (∀ lang, pdfLanguageOf lang = Language.English
        ∨ pdfLanguageOf lang = Language.German)
    ∧ pdfLanguageOf (some "en") = Language.English
    ∧ pdfLanguageOf (some "EN") = Language.English
    ∧ pdfLanguageOf (some "eN") = Language.English
    ∧ pdfLanguageOf (some "de") = Language.German
    ∧ pdfLanguageOf (some "english") = Language.German
    ∧ pdfLanguageOf (some "") = Language.German := by
  refine ⟨rfl, ?_, ?_, ?_, by decide, by decide, by decide, by decide, by decide, by decide⟩
  · intro s hs
    simp [pdfLanguageOf, Language.fromStr, hs]
  · intro s hs
    simp [pdfLanguageOf, Language.fromStr, hs]
  · intro lang
    cases lang with
    | none => right; rfl
    | some s =>
      by_cases hs : asciiLowerStr s = "en"
      · left; simp [pdfLanguageOf, Language.fromStr, hs]
      · right; simp [pdfLanguageOf, Language.fromStr, hs]

/-- C7 witness: a mixed-case code selects English through the theorem. -/
theorem pdf_language_selection_total_witness :
    pdfLanguageOf (some "En") = Language.English :=
  pdf_language_selection_total.2.1 "En" (by decide)

/-- C10: Invoice generation never fails because of a malformed session time
string: an unparseable start or end time is replaced by midnight and the
duration is computed from that default, and every error the generation can
return is one of the fixed validation messages, none of which concerns time
parsing. -/
theorem malformed_time_fallback :
    (∀ startStr endStr, parseTimeHM startStr = none →
        durationHoursOf startStr endStr = durationHoursOf "00:00" endStr)
    ∧ (∀ startStr endStr, parseTimeHM endStr = none →
        durationHoursOf startStr endStr = durationHoursOf startStr "00:00")
    ∧ parseTimeHM "00:00" = some 0
    ∧ (∀ env st req e, (generate_and_save_invoice env st req).1 = .error e →
        e ∈ ["Invalid client ID", "End date must be after start date",
             "Date range cannot exceed 1 year",
             "User profile not found - please create a user profile first",
             "Client not found", "Invalid year for invoice generation",
             "No sessions found in the specified date range",
             "Client has invalid hourly rate",
             "Invoice amount must be positive"]) := by
  have h00 : parseTimeHM "00:00" = some 0 := by decide
  refine ⟨?_, ?_, h00, ?_⟩
  · intro startStr endStr h
    simp only [durationHoursOf, h, h00, Option.getD_none, Option.getD_some]
  · intro startStr endStr h
    simp only [durationHoursOf, h, h00, Option.getD_none, Option.getD_some]
  · intro env st req e h
    unfold generate_and_save_invoice at h
    cases hv : generate_validate env st req with
    | error e' =>
      rw [hv] at h
      simp only [Except.error.injEq] at h
      subst h
      exact generate_validate_error_mem hv
    | ok v =>
      rw [hv] at h
      exact Except.noConfusion h

/-- C10 witness: a garbage start time behaves exactly like midnight. -/
theorem malformed_time_fallback_witness :
    durationHoursOf "garbage" "17:30" = durationHoursOf "00:00" "17:30" :=
  malformed_time_fallback.1 "garbage" "17:30" (by decide)

/-- C3: If any precondition of invoice generation fails (non-positive
client id, end date not strictly after start date, span exceeding 365 days,
missing profile, missing client, empty session set for the client and date
range, non-positive hourly rate, or non-positive total amount) the
generation returns an error and the invoice store and filesystem are
unchanged: every `bail!` of the source precedes the PDF write and the row
insert. -/
theorem generate_validation_failure_no_side_effects (env : Env) (st : Store)
    (req : InvoiceRequest)
    (h : req.client_id ≤ 0
      ∨ req.end_date.toOrd ≤ req.start_date.toOrd
      ∨ 365 < req.end_date.toOrd - req.start_date.toOrd
      ∨ env.profile = none
      ∨ (∀ c ∈ env.clients, c.id ≠ req.client_id)
      ∨ sessionsInRange st.sessions req = []
      ∨ (∃ c, env.clients.find? (fun c => c.id == req.client_id) = some c
          ∧ c.default_hourly_rate ≤ 0)
      ∨ (∃ c, env.clients.find? (fun c => c.id == req.client_id) = some c
          ∧ ((sessionsInRange st.sessions req).map
              (fun s => durationHoursOf s.start_time s.end_time)).sum
            * c.default_hourly_rate ≤ 0)) :
    (∃ e, (generate_and_save_invoice env st req).1 = .error e)
    ∧ (generate_and_save_invoice env st req).2 = st := by
  cases hv : generate_validate env st req with
  | error e =>
    constructor
    · exact ⟨e, by unfold generate_and_save_invoice; rw [hv]⟩
    · unfold generate_and_save_invoice
      rw [hv]
  | ok v =>
    exfalso
    obtain ⟨h1, h2, h3, h4, h5, _, _, h8, h9, hitems, hth, hta, h13⟩ :=
      generate_validate_ok hv
    rcases h with h | h | h | h | h | h | h | h
    · omega
    · omega
    · omega
    · rw [h] at h4
      exact Option.noConfusion h4
    · have hc := List.mem_of_find?_eq_some h5
      have hp := List.find?_some h5
      exact h _ hc (beq_iff_eq.mp hp)
    · exact h8 h
    · obtain ⟨c, hfind, hrate⟩ := h
      rw [h5] at hfind
      obtain rfl := Option.some.inj hfind
      linarith
    · obtain ⟨c, hfind, hle⟩ := h
      rw [h5] at hfind
      obtain rfl := Option.some.inj hfind
      have hAmt : v.total_amount = ((sessionsInRange st.sessions req).map
          (fun s => durationHoursOf s.start_time s.end_time)).sum
            * v.clientData.default_hourly_rate := by
        rw [hta, hth, hitems, List.map_map]
        rfl
      rw [hAmt] at h13
      linarith

/-- C3 witness: on a store with no sessions at all, generation fails and
both the invoice table and the file set are untouched. -/
theorem generate_validation_failure_no_side_effects_witness :
    sessionsInRange stNoSessW.sessions reqW = []
    ∧ ((∃ e, (generate_and_save_invoice envW stNoSessW reqW).1 = .error e)
      ∧ (generate_and_save_invoice envW stNoSessW reqW).2 = stNoSessW) :=
  ⟨by decide,
   generate_validation_failure_no_side_effects envW stNoSessW reqW
    (Or.inr (Or.inr (Or.inr (Or.inr (Or.inr (Or.inl (by decide)))))))⟩

/-- C4 counterexample: the claim says an invoice id matching no stored
invoice fails with the not-found error; for id 0, which matches no stored
invoice, the code fails with the id-validation error instead, because the
id guard runs before the row update. -/
theorem update_status_zero_id_counterexample :
    (∀ inv ∈ stNoSessW.invoices, inv.id ≠ 0)
    ∧ update_invoice_status stNoSessW 0 ⟨"sent", none⟩ = .error "Invalid invoice ID"
    ∧ update_invoice_status stNoSessW 0 ⟨"sent", none⟩ ≠ .error "Invoice not found" := by
  refine ⟨by decide, by decide, by decide⟩

/-- C4 (amended): update_invoice_status fails for every status string
outside the closed set; fails when the new status is paid and no paid date
is supplied; fails with the not-found error when the invoice id is positive
and matches no stored invoice (zero rows affected); and for a valid status
on an existing invoice it succeeds and persists the new status and the
request paid date. -/
theorem update_invoice_status_spec (st : Store) (invoice_id : Int)
    (req : UpdateInvoiceStatusRequest) :
    (req.status ∉ (["created", "sent", "paid", "overdue", "cancelled"] : List String) →
      ∃ e, update_invoice_status st invoice_id req = .error e)
    ∧ (req.status = "paid" → req.paid_date = none →
      ∃ e, update_invoice_status st invoice_id req = .error e)
    ∧ (0 < invoice_id →
      req.status ∈ (["created", "sent", "paid", "overdue", "cancelled"] : List String) →
      (req.status = "paid" → req.paid_date ≠ none) →
      (∀ inv ∈ st.invoices, inv.id ≠ invoice_id) →
      update_invoice_status st invoice_id req = .error "Invoice not found")
    ∧ (0 < invoice_id →
      req.status ∈ (["created", "sent", "paid", "overdue", "cancelled"] : List String) →
      (req.status = "paid" → req.paid_date ≠ none) →
      ∀ inv ∈ st.invoices, inv.id = invoice_id →
        ∃ st', update_invoice_status st invoice_id req = .ok st'
          ∧ { inv with status := req.status, paid_date := req.paid_date } ∈ st'.invoices) := by
  refine ⟨?_, ?_, ?_, ?_⟩
  · -- a status outside the closed set always fails
    intro hstat
    have hcont : (["created", "sent", "paid", "overdue",
        "cancelled"] : List String).contains req.status = false := by
      rw [← Bool.not_eq_true]
      intro hc
      exact hstat (List.elem_iff.mp hc)
    simp only [update_invoice_status]
    split_ifs with hid hc hp haff
    · exact ⟨_, rfl⟩
    · exact ⟨_, rfl⟩
    · exact ⟨_, rfl⟩
    · exact ⟨_, rfl⟩
    · exfalso
      rw [hcont] at hc
      simp at hc
  · -- paid without a date always fails
    intro hpaid hnone
    simp only [update_invoice_status]
    split_ifs with hid hc hp haff <;> try exact ⟨_, rfl⟩
    exfalso
    exact hp (by simp [hpaid, hnone])
  · -- positive id, valid request, no matching row: the not-found error
    intro hid hmem hpd hnone
    have hcont : (["created", "sent", "paid", "overdue",
        "cancelled"] : List String).contains req.status = true := List.elem_iff.mpr hmem
    have hguard : (req.status == "paid" && req.paid_date.isNone) = false := by
      by_cases hp : req.status = "paid"
      · cases hq : req.paid_date with
        | none => exact absurd hq (hpd hp)
        | some d => simp [hq]
      · simp [hp]
    have haff : st.invoices.filter (fun inv => inv.id == invoice_id) = [] := by
      rw [List.filter_eq_nil]
      intro a ha
      simp only [beq_iff_eq]
      exact fun hc => hnone a ha hc
    simp only [update_invoice_status]
    rw [if_neg (by omega), if_neg (by rw [hcont]; simp),
      if_neg (by rw [hguard]; simp), haff]
    simp
  · -- positive id, valid request, matching row: success and persistence
    intro hid hmem hpd inv hinv hinvid
    have hcont : (["created", "sent", "paid", "overdue",
        "cancelled"] : List String).contains req.status = true := List.elem_iff.mpr hmem
    have hguard : (req.status == "paid" && req.paid_date.isNone) = false := by
      by_cases hp : req.status = "paid"
      · cases hq : req.paid_date with
        | none => exact absurd hq (hpd hp)
        | some d => simp [hq]
      · simp [hp]
    have haff : inv ∈ st.invoices.filter (fun i => i.id == invoice_id) :=
      List.mem_filter.mpr ⟨hinv, by simp [hinvid]⟩
    have hlen : (st.invoices.filter (fun i => i.id == invoice_id)).length ≠ 0 := by
      intro hc
      rw [List.length_eq_zero] at hc
      rw [hc] at haff
      exact absurd haff (List.not_mem_nil _)
    simp only [update_invoice_status]
    rw [if_neg (by omega), if_neg (by rw [hcont]; simp),
      if_neg (by rw [hguard]; simp), if_neg (by simp [hlen])]
    refine ⟨_, rfl, ?_⟩
    have := List.mem_map_of_mem (fun i : Invoice =>
      if i.id == invoice_id then
        { i with status := req.status, paid_date := req.paid_date }
      else i) hinv
    simpa [hinvid] using this

/-- C4 witness: on the store holding `invoiceW`, an unknown status fails,
paid without a date fails, a vacant positive id is not found, and moving
the stored invoice to overdue succeeds and persists the change. -/
theorem update_invoice_status_spec_witness :
    ("weird" ∉ (["created", "sent", "paid", "overdue", "cancelled"] : List String)
      ∧ (∃ e, update_invoice_status stInvW 1
          ⟨"weird", none⟩ = .error e))
    ∧ (∃ e, update_invoice_status stInvW 1 ⟨"paid", none⟩ = .error e)
    ∧ update_invoice_status stInvW 2 ⟨"sent", none⟩ = .error "Invoice not found"
    ∧ (∃ st', update_invoice_status stInvW 1 ⟨"overdue", none⟩ = .ok st'
        ∧ { invoiceW with status := "overdue", paid_date := none } ∈ st'.invoices) :=
  ⟨⟨by decide, (update_invoice_status_spec stInvW 1 ⟨"weird", none⟩).1 (by decide)⟩,
   (update_invoice_status_spec stInvW 1 ⟨"paid", none⟩).2.1 rfl rfl,
   (update_invoice_status_spec stInvW 2 ⟨"sent", none⟩).2.2.1 (by decide) (by decide)
     (fun h => absurd h (by decide)) (by decide),
   (update_invoice_status_spec stInvW 1 ⟨"overdue", none⟩).2.2.2 (by decide) (by decide)
     (fun h => absurd h (by decide)) invoiceW (by decide) rfl⟩

/-- C9: Every successful update_invoice_status overwrites the stored
paid_date column with the request paid_date value, including none, changes
the status column, and changes nothing else: sessions and files are
untouched, rows with other ids are untouched, and every row with the
updated id carries exactly the request status and paid date. -/
theorem update_invoice_status_frame (st : Store) (invoice_id : Int)
    (req : UpdateInvoiceStatusRequest) (st' : Store)
    (h : update_invoice_status st invoice_id req = .ok st') :
    st'.sessions = st.sessions
    ∧ st'.files = st.files
    ∧ st'.invoices = st.invoices.map (fun inv =>
        if inv.id == invoice_id then
          { inv with status := req.status, paid_date := req.paid_date }
        else inv)
    ∧ (∀ inv ∈ st.invoices, inv.id ≠ invoice_id → inv ∈ st'.invoices)
    ∧ (∀ inv' ∈ st'.invoices, inv'.id = invoice_id →
        inv'.status = req.status ∧ inv'.paid_date = req.paid_date) := by
  simp only [update_invoice_status] at h
  split_ifs at h
  simp only [Except.ok.injEq] at h
  subst h
  refine ⟨rfl, rfl, rfl, ?_, ?_⟩
  · intro inv hinv hne
    have := List.mem_map_of_mem (fun i : Invoice =>
      if i.id == invoice_id then
        { i with status := req.status, paid_date := req.paid_date }
      else i) hinv
    simpa [beq_eq_false_iff_ne.mpr hne] using this
  · intro inv' hinv' hid
    obtain ⟨i, hi, hmapped⟩ := List.mem_map.mp hinv'
    by_cases hii : i.id = invoice_id
    · rw [if_pos (by simp [hii])] at hmapped
      rw [← hmapped]
      exact ⟨rfl, rfl⟩
    · rw [if_neg (by simp [hii])] at hmapped
      rw [← hmapped] at hid
      exact absurd hid hii

set_option maxRecDepth 20000 in
/-- C9 witness: moving the sent invoice with a stale paid date to overdue
with no date clears the date, keeps every other column, and leaves the
sessions and files alone. -/
theorem update_invoice_status_frame_witness :
    update_invoice_status stInvW 1 ⟨"overdue", none⟩ = .ok stInvW'
    ∧ (stInvW'.sessions = stInvW.sessions
      ∧ stInvW'.files = stInvW.files
      ∧ stInvW'.invoices = stInvW.invoices.map (fun inv =>
          if inv.id == (1 : Int) then
            { inv with
              status := "overdue", paid_date := (none : Option String) }
          else inv)
      ∧ (∀ inv ∈ stInvW.invoices, inv.id ≠ (1 : Int) → inv ∈ stInvW'.invoices)
      ∧ (∀ inv' ∈ stInvW'.invoices, inv'.id = (1 : Int) →
          inv'.status = "overdue" ∧ inv'.paid_date = (none : Option String))) :=
  ⟨by with_unfolding_all decide,
   update_invoice_status_frame stInvW 1 ⟨"overdue", none⟩ stInvW'
    (by with_unfolding_all decide)⟩

/-- C8: delete_invoice on an existing invoice removes the PDF at the path
recomputed from the invoice number when that file exists, succeeds equally
when the file is absent, always deletes the invoice row, and never touches
any session record. -/
theorem delete_invoice_spec (st : Store) (invoice_id : Int) (inv : Invoice)
    (hfind : st.invoices.find? (fun i => i.id == invoice_id) = some inv) :
    ∃ st', delete_invoice st invoice_id = .ok st'
      ∧ st'.sessions = st.sessions
      ∧ st'.invoices = st.invoices.filter (fun i => !(i.id == invoice_id))
      ∧ (∀ i ∈ st'.invoices, i.id ≠ invoice_id)
      ∧ (invoicePdfPath inv.invoice_number ∈ st.files →
          st'.files = st.files.erase (invoicePdfPath inv.invoice_number))
      ∧ (invoicePdfPath inv.invoice_number ∉ st.files → st'.files = st.files) := by
  simp only [delete_invoice, hfind]
  refine ⟨_, rfl, rfl, rfl, ?_, ?_, ?_⟩
  · intro i hi
    have := (List.mem_filter.mp hi).2
    simp only [Bool.not_eq_eq_eq_not, Bool.not_true] at this
    exact beq_eq_false_iff_ne.mp this
  · intro hmem
    simp [hmem]
  · intro hmem
    simp [hmem]

set_option maxRecDepth 20000 in
/-- C8 witness: deleting the stored invoice whose PDF file exists removes
exactly that file, the row, and nothing else. -/
theorem delete_invoice_spec_witness :
    stInvW.invoices.find? (fun i => i.id == (1 : Int)) = some invoiceW
    ∧ (∃ st', delete_invoice stInvW 1 = .ok st'
      ∧ st'.sessions = stInvW.sessions
      ∧ st'.invoices = stInvW.invoices.filter (fun i => !(i.id == (1 : Int)))
      ∧ (∀ i ∈ st'.invoices, i.id ≠ (1 : Int))
      ∧ (invoicePdfPath invoiceW.invoice_number ∈ stInvW.files →
          st'.files = stInvW.files.erase (invoicePdfPath invoiceW.invoice_number))
      ∧ (invoicePdfPath invoiceW.invoice_number ∉ stInvW.files →
          st'.files = stInvW.files)) :=
  ⟨by with_unfolding_all decide,
   delete_invoice_spec stInvW 1 invoiceW (by with_unfolding_all decide)⟩

/-- C5: computeDashboardMetrics returns totalRevenuePeriod as the sum of
total_amount over invoices with status paid whose date lies in the
half-open window derived from period, year and month, while
pendingInvoicesAmount sums total_amount over all sent invoices regardless
of date, and the three counts are all-time counts not restricted to the
window.  The window is spelled out for the year and month periods. -/
theorem dashboard_metrics_windowing (env : Env) (invs : List Invoice)
    (query : DashboardQuery)
    (h1 : 2000 ≤ query.year) (h2 : query.year ≤ env.nowYear + 1)
    (h3 : ∀ m, query.month = some m → 1 ≤ m ∧ m ≤ 12)
    (h4 : query.period = "month" ∨ query.period = "quarter"
      ∨ query.period = "year") :
    ∃ s t, periodWindow env.nowMonth query = .ok (s, t)
      ∧ get_dashboard_metrics env invs query = .ok
          { total_revenue_period := ((invs.filter (fun inv =>
              inv.status == "paid" && strLeB s inv.date
                && strLtB inv.date t)).map (fun inv => inv.total_amount)).sum,
            pending_invoices_amount := ((invs.filter (fun inv =>
              inv.status == "sent")).map (fun inv => inv.total_amount)).sum,
            total_invoices_count := (invs.length : Int),
            paid_invoices_count := ((invs.filter
              (fun inv => inv.status == "paid")).length : Int),
            pending_invoices_count := ((invs.filter
              (fun inv => inv.status == "sent")).length : Int) }
      ∧ (query.period = "year" →
          s = toString query.year ++ "-01-01"
          ∧ t = toString (query.year + 1) ++ "-01-01")
      ∧ (query.period = "month" → ∀ m, query.month = some m →
          s = toString query.year ++ "-" ++ rustFmtWidth 2 m ++ "-01"
          ∧ t = (if m == (12 : Int) then toString (query.year + 1) ++ "-01-01"
              else toString query.year ++ "-" ++ rustFmtWidth 2 (m + 1) ++ "-01")) := by
  obtain ⟨s, t, hw⟩ := periodWindow_isOk h4
  refine ⟨s, t, hw, get_dashboard_metrics_eq env invs query h1 h2 h3 hw, ?_, ?_⟩
  · intro hp
    have hy := @periodWindow_year env.nowMonth query hp
    rw [hw] at hy
    simp only [Except.ok.injEq, Prod.mk.injEq] at hy
    exact ⟨hy.1, hy.2⟩
  · intro hp m hm
    have hmo := @periodWindow_month env.nowMonth query hp
    rw [hw, hm] at hmo
    simp only [Option.getD_some, Except.ok.injEq, Prod.mk.injEq] at hmo
    exact ⟨hmo.1, hmo.2⟩

/-- C5 witness: for January 2025 on a table with a paid invoice inside the
window, a paid invoice outside it and a sent invoice dated 2024, the
revenue is 100 (only the in-window paid invoice), the pending amount is 70
(the sent invoice, despite its 2024 date), and the counts are 3, 2, 1. -/
theorem dashboard_metrics_windowing_witness :
    (get_dashboard_metrics envW [invD1, invD2, invD3] queryD = .ok
        { total_revenue_period := 100, pending_invoices_amount := 70,
          total_invoices_count := 3, paid_invoices_count := 2,
          pending_invoices_count := 1 })
    ∧ (∃ s t, periodWindow envW.nowMonth queryD = .ok (s, t)
      ∧ get_dashboard_metrics envW [invD1, invD2, invD3] queryD = .ok
          { total_revenue_period := (([invD1, invD2, invD3].filter (fun inv =>
              inv.status == "paid" && strLeB s inv.date
                && strLtB inv.date t)).map (fun inv => inv.total_amount)).sum,
            pending_invoices_amount := (([invD1, invD2, invD3].filter (fun inv =>
              inv.status == "sent")).map (fun inv => inv.total_amount)).sum,
            total_invoices_count := (([invD1, invD2, invD3] : List Invoice).length : Int),
            paid_invoices_count := (([invD1, invD2, invD3].filter
              (fun inv => inv.status == "paid")).length : Int),
            pending_invoices_count := (([invD1, invD2, invD3].filter
              (fun inv => inv.status == "sent")).length : Int) }
      ∧ (queryD.period = "year" →
          s = toString queryD.year ++ "-01-01"
          ∧ t = toString (queryD.year + 1) ++ "-01-01")
      ∧ (queryD.period = "month" → ∀ m, queryD.month = some m →
          s = toString queryD.year ++ "-" ++ rustFmtWidth 2 m ++ "-01"
          ∧ t = (if m == (12 : Int) then toString (queryD.year + 1) ++ "-01-01"
              else toString queryD.year ++ "-"
                ++ rustFmtWidth 2 (m + 1) ++ "-01"))) :=
  ⟨by with_unfolding_all decide,
   dashboard_metrics_windowing envW [invD1, invD2, invD3] queryD (by decide) (by decide)
    (by intro m hm; simp [queryD] at hm; omega) (Or.inl rfl)⟩

end Vereinsknete
